import Mathlib

/-
Verification of the VAIO pipeline core: metadata store, retry wrapper,
stage orchestrator, per-language fan-out, knowledge-base retrieval and
context injection.  Definitions are shallow embeddings of the Python
sources in vaio/core and vaio/kb.
-/

namespace VAIO

/- ──────────────────────────────────────────────────────────────
   Shared Python string helpers: str.strip() trims whitespace on
   both ends (vaio uses it on titles, snippets and model output).
   ────────────────────────────────────────────────────────────── -/

def lstripChars (l : List Char) : List Char :=
  l.dropWhile fun c => c.isWhitespace

def rstripChars (l : List Char) : List Char :=
  (lstripChars l.reverse).reverse

/-- Python str.strip with no argument: drop whitespace from both ends. -/
def pyStripChars (l : List Char) : List Char :=
  rstripChars (lstripChars l)

def pyStrip (s : String) : String :=
  ⟨pyStripChars s.data⟩

/- ──────────────────────────────────────────────────────────────
   vaio/core/constants.py
   ────────────────────────────────────────────────────────────── -/

def TD_MAX_TITLE_LENGTH : Nat := 100

def TD_TITLE_TRUNCATE_LENGTH : Nat := 97

/-- TARGET_LANGUAGES from vaio/core/constants.py (ISO code, display name),
in dict insertion order. -/
def TARGET_LANGUAGES : List (String × String) :=
  [("ar", "Arabic"), ("ja", "Japanese"), ("zh", "Mandarin"), ("de", "German"),
   ("it", "Italian"), ("es", "Spanish"), ("fr", "French"), ("ru", "Russian")]

/- ──────────────────────────────────────────────────────────────
   vaio/core/utils.py : metadata store
   ────────────────────────────────────────────────────────────── -/

/-- The persisted .vaio.json record, restricted to the fields the
pipeline logic reads and writes. -/
structure MetaRecord where
  file : String := ""
  stage : String := "audio_pending"
  translations : List (String × String) := []
  captionTranslations : List (String × String) := []
  deriving Repr, DecidableEq

/-- The fresh record load_meta builds when no readable record exists:
`\x7b"file": str(video_path), "stage": "audio_pending"\x7d`. -/
def defaultMeta (videoPath : String) : MetaRecord :=
  { file := videoPath, stage := "audio_pending" }

/-- State of the on-disk metadata file: absent, present but failing to
parse (read_text or json.loads raises), or present and parsed. -/
def MetaFile := Option (Except Unit MetaRecord)

/-- vaio/core/utils.py load_meta: if the file exists, try to parse it;
any exception is caught (a warning is printed) and control falls
through to the fresh default.  Total: never raises. -/
def load_meta (videoPath : String) (persisted : MetaFile) : MetaRecord :=
  match persisted with
  | some (Except.ok m) => m
  | some (Except.error _) => defaultMeta videoPath
  | none => defaultMeta videoPath

/- ──────────────────────────────────────────────────────────────
   Stage order (spec section 4.1) as positions.
   "audio_pending" is the code name of the initial position.
   ────────────────────────────────────────────────────────────── -/

def stageIdx : String → Nat
  | "init" => 0
  | "audio_pending" => 0
  | "audio_done" => 1
  | "captions_done" => 2
  | "captions_verified" => 3
  | "description_done" => 4
  | "translated" => 5
  | "captions_translated" => 6
  | "tts_done" => 7
  | _ => 0

/- ──────────────────────────────────────────────────────────────
   vaio/core/utils.py retry (lines 64-75), identical loop in
   translate.py / captions.py / description.py chat_with_retries:

     delay = INITIAL_BACKOFF_S
     for attempt in range(1, MAX_RETRIES + 1):
         try: return func(...)
         except:
             if attempt == MAX_RETRIES: raise
             time.sleep(delay)
             delay *= 2

   The attempt outcomes are modelled as a function from the attempt
   number (1-based) to an Except value.  The embedding returns the
   final outcome (none when the loop body never runs, i.e. the
   Python function falls through and returns None), the list of
   sleep durations in order, and the list of attempt numbers made.
   ────────────────────────────────────────────────────────────── -/

def retryAux {E A : Type} (f : Nat → Except E A) (attempt remaining : Nat)
    (delay : ℚ) : Except E A × List ℚ × List Nat :=
  match f attempt with
  | Except.ok a => (Except.ok a, [], [attempt])
  | Except.error e =>
    match remaining with
    | 0 => (Except.error e, [], [attempt])
    | r + 1 =>
      let p := retryAux f (attempt + 1) r (2 * delay)
      (p.1, delay :: p.2.1, attempt :: p.2.2)

/-- vaio/core/utils.py retry: run up to maxRetries attempts starting
at attempt 1 with initial delay d, doubling after each failure and
re-raising the failure of the last attempt. -/
def retry {E A : Type} (f : Nat → Except E A) (maxRetries : Nat) (d : ℚ) :
    Option (Except E A) × List ℚ × List Nat :=
  match maxRetries with
  | 0 => (none, [], [])
  | n + 1 =>
    let p := retryAux f 1 n d
    (some p.1, p.2.1, p.2.2)

/- ──────────────────────────────────────────────────────────────
   vaio/core/translate.py translate_one (lines 85-99), identical
   shape in captions.py (lines 88-102): the whole body runs inside
   one try; any exception, including the ValueError raised on an
   empty model response, is caught and recorded as False.
   ────────────────────────────────────────────────────────────── -/

/-- translate_one: the underlying chat (after retries) either raised,
or produced this text; empty stripped text raises ValueError inside
the same try; otherwise the output file is written and True returned. -/
def translate_one (outcome : Except Unit String) : Bool :=
  match outcome with
  | Except.error _ => false
  | Except.ok t => if pyStrip t = "" then false else true

/-- Whether the per-language worker body throws an exception: the chat
raised, or the empty-response ValueError fired. -/
def workerThrows (outcome : Except Unit String) : Bool :=
  match outcome with
  | Except.error _ => true
  | Except.ok t => pyStrip t = ""

/-- The fan-out of translate.process / captions.process: submit one
translate_one worker per TARGET_LANGUAGES entry to the pool and key
the aggregated result map by language code.  `chat c` is the outcome
of the underlying call made by the worker for language code c. -/
def runFanout (chat : String → Except Unit String) : List (String × Bool) :=
  TARGET_LANGUAGES.map fun p => (p.1, translate_one (chat p.1))

/- ──────────────────────────────────────────────────────────────
   vaio/core/description.py : generate_title post-processing
   (lines 364-371).
   ────────────────────────────────────────────────────────────── -/

/-- The cleaning step of generate_title:
`title = re.sub(r"[#\x22]", "", title).strip()`. -/
def cleanTitle (t : List Char) : List Char :=
  pyStripChars (t.filter fun c => !(c = '#' || c = '"'))

/-- The post-processing of generate_title applied to the raw model
output: clean, then truncate to 97 chars plus "..." when the cleaned
title exceeds 100 chars. -/
def generate_title_post (t : List Char) : List Char :=
  let c := cleanTitle t
  if TD_MAX_TITLE_LENGTH < c.length then
    c.take TD_TITLE_TRUNCATE_LENGTH ++ "...".data
  else
    c

/- ──────────────────────────────────────────────────────────────
   vaio/kb/query.py retrieve (lines 218-229):

     def retrieve(video_path, query, top_k=3):
         kb_dir = _resolve_kb_dir_for_video(video_path)
         if kb_dir is None: return []
         try:
             index = get_index(kb_dir)
             retriever = index.as_retriever(similarity_top_k=top_k)
             results = retriever.retrieve(query)
             return [r.text for r in results]
         except Exception: return []

   The backing vector index is modelled as the collection contents
   plus a per-chunk similarity score for the query; the library
   retriever returns the top_k highest-scoring chunks.
   ────────────────────────────────────────────────────────────── -/

structure Chunk where
  text : String
  score : ℚ
  deriving Repr, DecidableEq

/-- Insert a chunk into a list sorted by descending score. -/
def insertDesc (c : Chunk) : List Chunk → List Chunk
  | [] => [c]
  | d :: ds => if d.score ≤ c.score then c :: d :: ds else d :: insertDesc c ds

/-- Sort chunks by descending similarity score. -/
def rankByScore : List Chunk → List Chunk
  | [] => []
  | c :: cs => insertDesc c (rankByScore cs)

/-- The library retriever with similarity_top_k = topK: the topK
nearest chunks of the collection. -/
def backingRetrieve (chunks : List Chunk) (topK : Nat) : List Chunk :=
  (rankByScore chunks).take topK

/-- Environment of one retrieve call: the resolved knowledge-base
identity (none = disabled), the collection contents scored against
the query, and whether the backing index call raises. -/
structure RetrieveEnv where
  kbDir : Option String
  chunks : List Chunk
  indexFails : Bool

/-- vaio/kb/query.py retrieve (lines 218-229). -/
def retrieve (env : RetrieveEnv) (topK : Nat) : List String :=
  match env.kbDir with
  | none => []
  | some _ =>
    if env.indexFails then []
    else (backingRetrieve env.chunks topK).map Chunk.text

/- ──────────────────────────────────────────────────────────────
   vaio/kb/query.py inject_context (lines 232-283).  The retrieved
   nodes carry a text and an optional similarity score; the code
   formats each node by stripping its text, truncates the list to
   the first top_k entries, joins them with blank lines and prepends
   a delimited header block to the prompt.  No try/except is active
   around the index calls (it is commented out in the source), so a
   failing open_index/retrieve call propagates.
   ────────────────────────────────────────────────────────────── -/

structure Node where
  text : String
  score : Option ℚ
  deriving Repr, DecidableEq

structure InjectEnv where
  kbName : Option String
  nodes : List Node
  openFails : Bool

/-- The formatted_snippets list built by inject_context: each node has
get_content, so its stripped content is appended. -/
def formattedSnippets (nodes : List Node) : List String :=
  nodes.map fun n => pyStrip n.text

/-- The snippets that enter context assembly:
`formatted_snippets[:top_k]`. -/
def injectedSnippets (nodes : List Node) (topK : Nat) : List String :=
  (formattedSnippets nodes).take topK

/-- vaio/kb/query.py inject_context (lines 232-283). -/
def inject_context (env : InjectEnv) (prompt : String) (topK : Nat)
    (task : Option String) : Except Unit String :=
  match env.kbName with
  | none => Except.ok prompt
  | some _ =>
    if env.openFails then Except.error ()
    else if env.nodes.isEmpty then Except.ok prompt
    else
      let contextText := String.intercalate "\n\n" (injectedSnippets env.nodes topK)
      let header := "## Context (task=" ++ task.getD "general" ++ ")\n"
      Except.ok (header ++ contextText ++ "\n\n---\n\n" ++ prompt)

/-- The survival predicate the specification describes for context
injection: a candidate survives iff its score is absent or strictly
greater than the 0.35 threshold.  (Stated from the spec for
comparison; the source applies no such filter.) -/
def specSurvives (n : Node) : Bool :=
  match n.score with
  | none => true
  | some s => decide ((7 : ℚ) / 20 < s)

/- ──────────────────────────────────────────────────────────────
   vaio/kb/query.py build_if_needed (lines 290-307):

     kb_dir = _resolve_kb_dir_for_video(video_path)
     if kb_dir is None: return
     stats = collection_stats(kb_dir)
     if stats["count"] == 0 and any(kb_dir.iterdir()):
         docs = load_documents(kb_dir)
         build_index(kb_dir, docs)
     print(...)

   Modelled as the list of index operations issued, in order.
   ────────────────────────────────────────────────────────────── -/

/-- One entry of kb_dir.iterdir(): a name plus whether it is a file
(as opposed to a subdirectory). -/
structure DirEntry where
  name : String
  isFile : Bool
  deriving Repr, DecidableEq

/-- The resolved knowledge-base state build_if_needed sees: the count
of the resolved collection and the iterdir() entries of the source
directory. -/
structure KbState where
  count : Nat
  entries : List DirEntry
  deriving Repr, DecidableEq

inductive KbAction where
  | countQuery
  | loadDocs
  | buildIndex
  deriving Repr, DecidableEq

/-- vaio/kb/query.py build_if_needed: the operations issued against
the knowledge index.  buildIndex is the operation that embeds
documents (build_index); countQuery is collection_stats. -/
def build_if_needed (kb : Option KbState) : List KbAction :=
  match kb with
  | none => []
  | some k =>
    if k.count = 0 ∧ k.entries ≠ [] then
      [KbAction.countQuery, KbAction.loadDocs, KbAction.buildIndex]
    else
      [KbAction.countQuery]

/-- Whether a call issued a build (and hence embedding calls). -/
def issuesBuild (kb : Option KbState) : Bool :=
  KbAction.buildIndex ∈ build_if_needed kb

/- ──────────────────────────────────────────────────────────────
   Pipeline state machine: vaio/core/audio.py, description.py,
   translate.py, captions.py, tts.py, orchestrated by
   vaio/core/full_auto.py run and vaio/cli.py handle_continue.
   ────────────────────────────────────────────────────────────── -/

/-- On-disk metadata plus the history of persisted stage values. -/
structure PState where
  meta : MetaRecord
  writes : List String

/-- vaio/core/utils.py save_meta: persist the whole record; the trace
records the stage value of every persisted write. -/
def saveMeta (st : PState) (m : MetaRecord) : PState :=
  { meta := m, writes := st.writes ++ [m.stage] }

/-- Outcome of one Python function: returned normally, or the process
exited (sys.exit or an uncaught exception). -/
inductive Flow where
  | cont (st : PState)
  | halt (st : PState)

def Flow.state : Flow → PState
  | cont st => st
  | halt st => st

def Flow.bind (x : Flow) (f : PState → Flow) : Flow :=
  match x with
  | halt st => halt st
  | cont st => f st

/-- External facts one pipeline run observes: user answers, files on
disk, outcomes of external calls. -/
structure Env where
  srtExists : Bool
  userOkCaptions : Bool
  genOk : Bool
  userOkTD : Bool
  tdExists : Bool
  tdCandidatesExist : Bool
  captionsDirExists : Bool
  srtCandidatesExist : Bool
  chatTD : String → Except Unit String
  chatCaptions : String → Except Unit String

/-- audio.extract_audio (lines 52-76): run ffmpeg, then persist stage
audio_done. -/
def Audio.extract_audio (st : PState) : PState :=
  saveMeta st { st.meta with stage := "audio_done" }

/-- audio.generate_captions (lines 106-135): whisper transcription,
write the srt, persist stage captions_done. -/
def Audio.generate_captions (st : PState) : PState :=
  saveMeta st { st.meta with stage := "captions_done" }

/-- audio.verify (lines 141-162): sys.exit(1) when the srt is missing,
sys.exit(0) when the user rejects — both before any metadata write;
on confirmation persist stage captions_verified. -/
def Audio.verify (env : Env) (st : PState) : Flow :=
  if !env.srtExists then Flow.halt st
  else if !env.userOkCaptions then Flow.halt st
  else Flow.cont (saveMeta st { st.meta with stage := "captions_verified" })

/-- description.process (lines 444-491) with save_td (lines 496-523):
an exception from generation propagates with no stage write; otherwise
save_td persists stage description_done BEFORE the confirmation
prompt, and rejection then exits via sys.exit(0). -/
def Description.process (env : Env) (st : PState) : Flow :=
  if !env.genOk then Flow.halt st
  else
    let st1 := saveMeta st { st.meta with stage := "description_done" }
    if !env.userOkTD then Flow.halt st1
    else Flow.cont st1

/-- translate.process (lines 105-155): sys.exit(1) when no TD file is
found anywhere; otherwise fan out over TARGET_LANGUAGES and persist
stage translated with the per-language success map. -/
def Translate.process (env : Env) (st : PState) : Flow :=
  if !env.tdExists && !env.tdCandidatesExist then Flow.halt st
  else
    let results := runFanout env.chatTD
    Flow.cont (saveMeta st
      { st.meta with
        stage := "translated"
        translations := results.map fun p => (p.1, if p.2 then "done" else "failed") })

/-- captions.process (lines 108-181): sys.exit(1) when the captions
directory or every candidate srt is missing; otherwise fan out over
TARGET_LANGUAGES and persist stage captions_translated. -/
def Captions.process (env : Env) (st : PState) : Flow :=
  if !env.captionsDirExists then Flow.halt st
  else if !env.srtCandidatesExist then Flow.halt st
  else
    let results := runFanout env.chatCaptions
    Flow.cont (saveMeta st
      { st.meta with
        stage := "captions_translated"
        captionTranslations := results.map fun p => (p.1, if p.2 then "done" else "failed") })

/-- tts.process (lines 156-216): returns without any metadata write
when the captions directory is missing; otherwise every per-language
failure is caught inside the loop and stage tts_done is persisted. -/
def Tts.process (env : Env) (st : PState) : Flow :=
  if !env.captionsDirExists then Flow.cont st
  else Flow.cont (saveMeta st { st.meta with stage := "tts_done" })

/-- full_auto.run (lines 15-65): branch on the persisted stage,
reloading it from the metadata after each branch. -/
def full_auto_run (env : Env) (st : PState) : Flow :=
  let stage := st.meta.stage
  Flow.bind
    (if stage = "init" ∨ stage = "audio_pending" ∨ stage = "audio_done" then
      Audio.verify env (Audio.generate_captions (Audio.extract_audio st))
    else Flow.cont st) fun st =>
  Flow.bind
    (if st.meta.stage = "captions_verified" ∨ st.meta.stage = "captions_done" then
      Description.process env st
    else Flow.cont st) fun st =>
  Flow.bind
    (if st.meta.stage = "description_done" then Translate.process env st
    else Flow.cont st) fun st =>
  Flow.bind
    (if st.meta.stage = "translated" then Captions.process env st
    else Flow.cont st) fun st =>
  if st.meta.stage = "captions_translated" then Tts.process env st
  else Flow.cont st

/-- cli.py handle_continue (lines 59-86): sequential if blocks; each
taken branch runs its stage call (whose sys.exit ends the process) and
then assigns the literal next stage to the local stage variable, which
is not reloaded from the metadata. -/
def handle_continue (env : Env) (st : PState) : Flow :=
  let stage0 := st.meta.stage
  Flow.bind
    (if stage0 = "init" ∨ stage0 = "audio_pending" ∨ stage0 = "audio_done" then
      Audio.verify env st
    else Flow.cont st) fun st1 =>
  let stage1 :=
    if stage0 = "init" ∨ stage0 = "audio_pending" ∨ stage0 = "audio_done" then
      "captions_verified"
    else stage0
  Flow.bind
    (if stage1 = "captions_verified" ∨ stage1 = "captions_done" then
      Description.process env st1
    else Flow.cont st1) fun st2 =>
  let stage2 :=
    if stage1 = "captions_verified" ∨ stage1 = "captions_done" then
      "description_done"
    else stage1
  Flow.bind
    (if stage2 = "description_done" then Translate.process env st2
    else Flow.cont st2) fun st3 =>
  let stage3 := if stage2 = "description_done" then "translated" else stage2
  if stage3 = "translated" then Captions.process env st3
  else Flow.cont st3

/-- One resume invocation: the auto-staged pipeline or the continue
command. -/
inductive Invocation where
  | fullAuto (env : Env)
  | handleCont (env : Env)

def runInvocation : Invocation → PState → Flow
  | Invocation.fullAuto env, st => full_auto_run env st
  | Invocation.handleCont env, st => handle_continue env st

/-- A sequence of resume invocations against the same asset; each new
process starts from the state the previous one left persisted. -/
def runSeq : List Invocation → PState → PState
  | [], st => st
  | i :: is, st => runSeq is (Flow.state (runInvocation i st))

def stageLe (a b : String) : Prop := stageIdx a ≤ stageIdx b

/-- The persisted stage history never moves to an earlier position. -/
def StageMono (l : List String) : Prop := List.Chain' stageLe l

/-- Run invariant: the trace starting from the initially persisted
stage is monotone, and the record on disk is its last element. -/
def Inv (s0 : String) (st : PState) : Prop :=
  StageMono (s0 :: st.writes) ∧ (s0 :: st.writes).getLast? = some st.meta.stage

/- ──────────────────────────────────────────────────────────────
   Concrete inputs used by counterexamples and witnesses.
   ────────────────────────────────────────────────────────────── -/

/-- The retrieval candidates of the confidence-filter example: scores
0.1, 0.3, 0.35, 0.4 and absent. -/
def exampleNodes : List Node :=
  [⟨"a", some (1 / 10)⟩, ⟨"b", some (3 / 10)⟩, ⟨"c", some (7 / 20)⟩,
   ⟨"d", some (2 / 5)⟩, ⟨"e", none⟩]

/-- An injection environment that resolves a knowledge base and
retrieves exampleNodes. -/
def exampleInjectEnv : InjectEnv :=
  { kbName := some "kb", nodes := exampleNodes, openFails := false }

/-- An injection environment with a single candidate whose score 0.1
is at or below the 0.35 threshold. -/
def lowScoreEnv : InjectEnv :=
  { kbName := some "kb", nodes := [⟨"a", some (1 / 10)⟩], openFails := false }

/-- A pipeline environment where every artifact exists, generation
succeeds and the user rejects the title/description confirmation. -/
def rejectTdEnv : Env :=
  { srtExists := true, userOkCaptions := true, genOk := true, userOkTD := false
    tdExists := true, tdCandidatesExist := true, captionsDirExists := true
    srtCandidatesExist := true
    chatTD := fun _ => Except.ok "ok", chatCaptions := fun _ => Except.ok "ok" }

/-- A pipeline environment where everything succeeds and both manual
checkpoints are confirmed. -/
def allOkEnv : Env :=
  { srtExists := true, userOkCaptions := true, genOk := true, userOkTD := true
    tdExists := true, tdCandidatesExist := true, captionsDirExists := true
    srtCandidatesExist := true
    chatTD := fun _ => Except.ok "ok", chatCaptions := fun _ => Except.ok "ok" }

/-- A state persisted at the captions_verified stage with an empty
write history. -/
def verifiedState : PState :=
  { meta := { file := "v.mp4", stage := "captions_verified" }, writes := [] }

/-- A state persisted at the captions_done stage with an empty write
history. -/
def capsDoneState : PState :=
  { meta := { file := "v.mp4", stage := "captions_done" }, writes := [] }

/-- A pipeline environment where every artifact exists and the user
rejects the caption-verification checkpoint. -/
def rejectCaptionsEnv : Env :=
  { srtExists := true, userOkCaptions := false, genOk := true, userOkTD := true
    tdExists := true, tdCandidatesExist := true, captionsDirExists := true
    srtCandidatesExist := true
    chatTD := fun _ => Except.ok "ok", chatCaptions := fun _ => Except.ok "ok" }

/- ──────────────────────────────────────────────────────────────
   Theorems.
   ────────────────────────────────────────────────────────────── -/

/-- Claim C10: the published title never exceeds TD_MAX_TITLE_LENGTH
(100) characters: after removing every hash and double-quote character
and stripping whitespace, a cleaned title longer than 100 characters is
replaced by its first 97 characters followed by three dots. -/
theorem generate_title_length_bound (t : List Char) :
    (generate_title_post t).length ≤ TD_MAX_TITLE_LENGTH ∧
    (TD_MAX_TITLE_LENGTH < (cleanTitle t).length →
      generate_title_post t =
        (cleanTitle t).take TD_TITLE_TRUNCATE_LENGTH ++ "...".data) := by
  constructor
  · unfold generate_title_post
    by_cases h : TD_MAX_TITLE_LENGTH < (cleanTitle t).length
    · rw [if_pos h]
      have h3 : ("...".data).length = 3 := rfl
      simp only [List.length_append, List.length_take, h3,
        TD_TITLE_TRUNCATE_LENGTH, TD_MAX_TITLE_LENGTH] at *
      omega
    · rw [if_neg h]
      simp only [TD_MAX_TITLE_LENGTH] at h ⊢
      omega
  · intro h
    unfold generate_title_post
    rw [if_pos h]

/-- Claim C10 witness: a 101-character cleaned title is truncated to
97 characters plus three dots, within the 100-character bound. -/
theorem generate_title_length_bound_witness :
    generate_title_post (List.replicate 101 'a') =
      List.replicate 97 'a' ++ "...".data ∧
    (generate_title_post (List.replicate 101 'a')).length ≤ TD_MAX_TITLE_LENGTH := by
  constructor
  · have h := (generate_title_length_bound (List.replicate 101 'a')).2 (by decide)
    rw [h]
    decide
  · exact (generate_title_length_bound (List.replicate 101 'a')).1

/-- Claim C6: load_meta returns the persisted record when a readable
one exists; when the file is absent or fails to parse it returns the
fresh default, whose stage is the initial pipeline position; it is a
total function (the Python catches every exception). -/
theorem load_meta_spec (videoPath : String) :
    (∀ m : MetaRecord, load_meta videoPath (some (Except.ok m)) = m) ∧
    load_meta videoPath (some (Except.error ())) = defaultMeta videoPath ∧
    load_meta videoPath none = defaultMeta videoPath ∧
    (defaultMeta videoPath).stage = "audio_pending" ∧
    stageIdx (load_meta videoPath (some (Except.error ()))).stage = 0 ∧
    stageIdx (load_meta videoPath none).stage = 0 :=
  ⟨fun _ => rfl, rfl, rfl, rfl, rfl, rfl⟩

lemma length_insertDesc (c : Chunk) (l : List Chunk) :
    (insertDesc c l).length = l.length + 1 := by
  induction l with
  | nil => rfl
  | cons d ds ih =>
    by_cases h : d.score ≤ c.score <;> simp [insertDesc, h, ih]

lemma length_rankByScore (l : List Chunk) :
    (rankByScore l).length = l.length := by
  induction l with
  | nil => rfl
  | cons c cs ih => simp [rankByScore, length_insertDesc, ih]

/-- Claim C8: retrieve returns at most topK results, and returns the
empty list, never an error, when the identity is disabled, when the
collection is empty, and when the backing index call fails. -/
theorem retrieve_safe_spec (env : RetrieveEnv) (topK : Nat) :
    (retrieve env topK).length ≤ topK ∧
    retrieve { env with kbDir := none } topK = [] ∧
    retrieve { env with indexFails := true } topK = [] ∧
    retrieve { env with chunks := [] } topK = [] := by
  obtain ⟨kb, chunks, fails⟩ := env
  refine ⟨?_, rfl, ?_, ?_⟩
  · cases kb with
    | none => simp [retrieve]
    | some k =>
      cases fails with
      | true => simp [retrieve]
      | false =>
        simp [retrieve, backingRetrieve, List.length_take, length_rankByScore]
  · cases kb <;> simp [retrieve]
  · cases kb <;> cases fails <;> simp [retrieve, backingRetrieve, rankByScore]

/-- Claim C9: whenever inject_context returns a string, that string
has the original prompt as its suffix — injection only prepends. -/
theorem inject_context_prepend_only (env : InjectEnv) (prompt : String)
    (topK : Nat) (task : Option String) (s : String)
    (h : inject_context env prompt topK task = Except.ok s) :
    ∃ pre, s = pre ++ prompt := by
  unfold inject_context at h
  match henv : env.kbName with
  | none =>
    rw [henv] at h
    simp only [Except.ok.injEq] at h
    exact ⟨"", by simp [h]⟩
  | some kb =>
    rw [henv] at h
    by_cases hf : env.openFails
    · rw [if_pos hf] at h
      exact absurd h (by simp)
    · rw [if_neg hf] at h
      by_cases hn : env.nodes.isEmpty
      · rw [if_pos hn] at h
        simp only [Except.ok.injEq] at h
        exact ⟨"", by simp [h]⟩
      · rw [if_neg hn] at h
        simp only [Except.ok.injEq] at h
        refine ⟨"## Context (task=" ++ task.getD "general" ++ ")\n"
          ++ String.intercalate "\n\n" (injectedSnippets env.nodes topK)
          ++ "\n\n---\n\n", ?_⟩
        rw [← h]

/-- Claim C9 witness: inject_context at a concrete environment returns
a string ending in the prompt. -/
theorem inject_context_prepend_only_witness :
    ∃ pre, ("## Context (task=general)\nsnippet\n\n---\n\nPROMPT" : String)
      = pre ++ "PROMPT" :=
  inject_context_prepend_only
    { kbName := some "kb", nodes := [⟨"snippet", some (1 / 2)⟩], openFails := false }
    "PROMPT" 3 none _ rfl

/-- Claim C7 counterexample: on an empty collection whose source
directory contains one entry that is a subdirectory and no file at
all, build_if_needed issues a build — the claim says it must be a
no-op whenever the source location contains no file. -/
theorem build_if_needed_no_file_cex :
    issuesBuild (some { count := 0, entries := [⟨"sub", false⟩] }) = true ∧
    (([⟨"sub", false⟩] : List DirEntry).filter fun e => e.isFile) = [] := by
  constructor
  · rfl
  · rfl

/-- Claim C7 amended: build_if_needed issues a build if and only if
the identity is enabled, the resolved collection has zero entries and
the source directory iterdir() yields at least one entry of any kind
(file or subdirectory); in every other case only the count query runs
and no embedding call is issued. -/
theorem build_if_needed_amended (k : KbState) :
    (issuesBuild (some k) = true ↔ k.count = 0 ∧ k.entries ≠ []) ∧
    issuesBuild none = false ∧
    build_if_needed none = [] ∧
    (¬(k.count = 0 ∧ k.entries ≠ []) →
      build_if_needed (some k) = [KbAction.countQuery]) := by
  refine ⟨?_, rfl, rfl, ?_⟩
  · by_cases h : k.count = 0 ∧ k.entries ≠ []
    · simp only [issuesBuild, build_if_needed, if_pos h]
      simpa using h
    · simp only [issuesBuild, build_if_needed, if_neg h]
      simpa using h
  · intro h
    simp only [build_if_needed, if_neg h]

/-- Claim C7 amended witness: a nonempty collection gets only the
count query. -/
theorem build_if_needed_amended_witness :
    build_if_needed (some { count := 5, entries := [⟨"doc.txt", true⟩] })
      = [KbAction.countQuery] :=
  (build_if_needed_amended { count := 5, entries := [⟨"doc.txt", true⟩] }).2.2.2
    (by simp)

/-- Claim C1 counterexample: for retrieval candidates with scores
0.1, 0.3, 0.35, 0.4 and absent, the snippets that enter context
assembly (with the call-site default top_k = 3) are exactly the first
three candidates — the ones with scores 0.1, 0.3 and 0.35, precisely
those the claim says are discarded — while the candidates the claim
says survive (0.4 and absent) are not included; inject_context applies
no confidence filter. -/
theorem inject_context_no_filter_cex :
    injectedSnippets exampleNodes 3 = ["a", "b", "c"] ∧
    (exampleNodes.filter specSurvives).map Node.text = ["d", "e"] ∧
    injectedSnippets exampleNodes 3 ≠ (exampleNodes.filter specSurvives).map Node.text ∧
    inject_context exampleInjectEnv "P" 3 (some "desc")
      = Except.ok "## Context (task=desc)\na\n\nb\n\nc\n\n---\n\nP" := by
  have ha : specSurvives ⟨"a", some (1 / 10)⟩ = false := by
    simp only [specSurvives, decide_eq_false_iff_not]
    norm_num
  have hb : specSurvives ⟨"b", some (3 / 10)⟩ = false := by
    simp only [specSurvives, decide_eq_false_iff_not]
    norm_num
  have hc : specSurvives ⟨"c", some (7 / 20)⟩ = false := by
    simp only [specSurvives, decide_eq_false_iff_not]
    norm_num
  have hd : specSurvives ⟨"d", some (2 / 5)⟩ = true := by
    simp only [specSurvives, decide_eq_true_eq]
    norm_num
  have he : specSurvives (⟨"e", none⟩ : Node) = true := rfl
  have h2 : (exampleNodes.filter specSurvives).map Node.text = ["d", "e"] := by
    simp only [exampleNodes, List.filter, ha, hb, hc, hd, he, List.map]
  have h1 : injectedSnippets exampleNodes 3 = ["a", "b", "c"] := rfl
  refine ⟨h1, h2, ?_, rfl⟩
  rw [h1, h2]
  decide

/-- Claim C1 amended: inject_context performs no confidence filtering:
every retrieved candidate survives regardless of its score (present or
absent), the first top_k survivors in retrieval order form the context
block, which is prepended to the prompt whenever at least one
candidate was retrieved; with no candidate the prompt is returned
unchanged. -/
theorem inject_context_amended (env : InjectEnv) (prompt : String)
    (topK : Nat) (task : Option String) :
    injectedSnippets env.nodes topK
      = (env.nodes.map fun n => pyStrip n.text).take topK ∧
    (∀ f : Option ℚ → Option ℚ,
      injectedSnippets (env.nodes.map fun n => ⟨n.text, f n.score⟩) topK
        = injectedSnippets env.nodes topK) ∧
    (env.kbName.isSome = true → env.openFails = false → env.nodes ≠ [] →
      inject_context env prompt topK task =
        Except.ok ("## Context (task=" ++ task.getD "general" ++ ")\n"
          ++ String.intercalate "\n\n" (injectedSnippets env.nodes topK)
          ++ "\n\n---\n\n" ++ prompt)) ∧
    (env.kbName.isSome = true → env.openFails = false → env.nodes = [] →
      inject_context env prompt topK task = Except.ok prompt) := by
  refine ⟨rfl, ?_, ?_, ?_⟩
  · intro f
    simp only [injectedSnippets, formattedSnippets, List.map_map]
    rfl
  · intro hk hf hn
    obtain ⟨kb, hkb⟩ := Option.isSome_iff_exists.mp hk
    have hne : env.nodes.isEmpty = false := by simpa using hn
    simp only [inject_context, hkb, hf, hne, Bool.false_eq_true, if_false]
  · intro hk hf hn
    obtain ⟨kb, hkb⟩ := Option.isSome_iff_exists.mp hk
    simp only [inject_context, hkb, hf, hn, List.isEmpty_nil, Bool.false_eq_true,
      if_false, if_true]

/-- Claim C1 amended witness: with one retrieved low-score candidate
(0.1, at or below the threshold) the candidate is included and the
block is prepended. -/
theorem inject_context_amended_witness :
    inject_context lowScoreEnv "P" 3 (some "desc")
      = Except.ok ("## Context (task=desc)\n"
          ++ String.intercalate "\n\n" (injectedSnippets lowScoreEnv.nodes 3)
          ++ "\n\n---\n\n" ++ "P") :=
  (inject_context_amended lowScoreEnv "P" 3 (some "desc")).2.2.1 rfl rfl (by decide)

lemma sleeps_shift (delay : ℚ) (r : Nat) :
    delay :: (List.range r).map (fun k => 2 * delay * 2 ^ k)
      = (List.range (r + 1)).map fun k => delay * 2 ^ k := by
  rw [List.range_succ_eq_map, List.map_cons, List.map_map]
  congr 1
  · ring
  · apply List.map_congr_left
    intro k _
    simp only [Function.comp_apply, Nat.succ_eq_add_one]
    ring

lemma attempts_shift (a r : Nat) :
    a :: (List.range r).map (fun k => a + 1 + k)
      = (List.range (r + 1)).map fun k => a + k := by
  rw [List.range_succ_eq_map, List.map_cons, List.map_map]
  congr 1
  apply List.map_congr_left
  intro k _
  simp only [Function.comp_apply, Nat.succ_eq_add_one]
  omega

lemma retryAux_all_fail {E A : Type} (f : Nat → Except E A) (e : Nat → E)
    (a r : Nat) (delay : ℚ)
    (h : ∀ j, a ≤ j → j ≤ a + r → f j = Except.error (e j)) :
    retryAux f a r delay =
      (Except.error (e (a + r)),
       (List.range r).map (fun k => delay * 2 ^ k),
       (List.range (r + 1)).map fun k => a + k) := by
  induction r generalizing a delay with
  | zero =>
    have hfa : f a = Except.error (e a) := h a le_rfl (by omega)
    simp [retryAux, hfa, List.range_succ]
  | succ r ih =>
    have hfa : f a = Except.error (e a) := h a le_rfl (by omega)
    have hrec := ih (a + 1) (2 * delay) fun j hj1 hj2 => h j (by omega) (by omega)
    simp only [retryAux, hfa, hrec]
    rw [show a + 1 + r = a + (r + 1) by omega, sleeps_shift delay r,
      attempts_shift a (r + 1)]

lemma retryAux_succeeds {E A : Type} (f : Nat → Except E A) (e : Nat → E) (v : A)
    (a s r : Nat) (delay : ℚ)
    (hs : s ≤ r)
    (hfail : ∀ j, a ≤ j → j < a + s → f j = Except.error (e j))
    (hok : f (a + s) = Except.ok v) :
    retryAux f a r delay =
      (Except.ok v,
       (List.range s).map (fun k => delay * 2 ^ k),
       (List.range (s + 1)).map fun k => a + k) := by
  induction s generalizing a r delay with
  | zero =>
    have hfa : f a = Except.ok v := by simpa using hok
    simp [retryAux, hfa, List.range_succ]
  | succ s ih =>
    have hfa : f a = Except.error (e a) := hfail a le_rfl (by omega)
    obtain ⟨r1, rfl⟩ : ∃ r1, r = r1 + 1 := ⟨r - 1, by omega⟩
    have hrec := ih (a + 1) r1 (2 * delay) (by omega)
      (fun j hj1 hj2 => hfail j (by omega) (by omega))
      (by rw [show a + 1 + s = a + (s + 1) by omega]; exact hok)
    simp only [retryAux, hfa, hrec]
    rw [sleeps_shift delay s, attempts_shift a (s + 1)]

/-- Claim C3: with maximum attempt count n at least 1 and initial
delay d, if every attempt fails, retry makes exactly the attempts
1..n, sleeps exactly d, 2d, 4d, ..., 2^(n-2)d between consecutive
attempts, and re-raises the last exception; if attempt k is the first
success, its value is returned after exactly the attempts 1..k with
the first k-1 sleeps, and no further attempt is made. -/
theorem retry_backoff_spec {E A : Type} (f : Nat → Except E A) (e : Nat → E)
    (n : Nat) (d : ℚ) (hd : 0 < d) (hn : 1 ≤ n) :
    ((∀ i, 1 ≤ i → i ≤ n → f i = Except.error (e i)) →
      retry f n d =
        (some (Except.error (e n)),
         (List.range (n - 1)).map (fun k => d * 2 ^ k),
         (List.range n).map fun k => 1 + k)) ∧
    (∀ k v, 1 ≤ k → k ≤ n →
      (∀ i, 1 ≤ i → i < k → f i = Except.error (e i)) →
      f k = Except.ok v →
      retry f n d =
        (some (Except.ok v),
         (List.range (k - 1)).map (fun j => d * 2 ^ j),
         (List.range k).map fun j => 1 + j)) := by
  obtain ⟨m, rfl⟩ : ∃ m, n = m + 1 := ⟨n - 1, by omega⟩
  constructor
  · intro h
    have hall := retryAux_all_fail f e 1 m d fun j hj1 hj2 => h j hj1 (by omega)
    simp only [retry, hall]
    rw [show 1 + m = m + 1 by omega, Nat.add_sub_cancel]
  · intro k v hk1 hkn hfail hok
    obtain ⟨s, rfl⟩ : ∃ s, k = s + 1 := ⟨k - 1, by omega⟩
    have hrun := retryAux_succeeds f e v 1 s m d (by omega)
      (fun j hj1 hj2 => hfail j hj1 (by omega))
      (by rw [show 1 + s = s + 1 by omega]; exact hok)
    simp only [retry, hrun]
    rw [Nat.add_sub_cancel]

/-- Claim C3 witness: with three attempts and initial delay 1, an
always-failing call makes attempts 1, 2, 3 with sleeps 1 and 2 and
re-raises; a call succeeding on attempt 2 stops after attempts 1 and 2
with a single sleep of 1. -/
theorem retry_backoff_spec_witness :
    retry (fun _ => (Except.error 7 : Except Nat Nat)) 3 1
      = (some (Except.error 7), [1, 2], [1, 2, 3]) ∧
    retry (fun i => if i = 2 then (Except.ok 5 : Except Nat Nat) else Except.error 7) 3 1
      = (some (Except.ok 5), [1], [1, 2]) := by
  constructor
  · have h := (retry_backoff_spec (fun _ => (Except.error 7 : Except Nat Nat))
      (fun _ => 7) 3 1 (by norm_num) (by norm_num)).1 (fun i _ _ => rfl)
    rw [h]
    norm_num [List.range_succ]
  · have h := (retry_backoff_spec
      (fun i => if i = 2 then (Except.ok 5 : Except Nat Nat) else Except.error 7)
      (fun _ => 7) 3 1 (by norm_num) (by norm_num)).2 2 5 (by norm_num) (by norm_num)
      (by intro i h1 h2; interval_cases i <;> rfl) rfl
    rw [h]
    norm_num [List.range_succ]

lemma translate_one_eq_not_throws (o : Except Unit String) :
    translate_one o = !workerThrows o := by
  match o with
  | Except.error _ => rfl
  | Except.ok t =>
    by_cases h : pyStrip t = "" <;> simp [translate_one, workerThrows, h]

lemma fanout_filter_count (l : List (String × String))
    (chat : String → Except Unit String) :
    ((l.map fun p => (p.1, translate_one (chat p.1))).filter fun p => !p.2).length
      = (l.filter fun p => workerThrows (chat p.1)).length := by
  induction l with
  | nil => rfl
  | cons a t ih =>
    simp only [List.map_cons, List.filter_cons, translate_one_eq_not_throws (chat a.1)]
    by_cases h : workerThrows (chat a.1)
    · simp [h, ih]
    · simp only [Bool.not_eq_true] at h
      simp [h, ih]

/-- Claim C5: the fan-out produces exactly one entry per target
language (keys in order, hence N entries for N languages), the number
of entries recorded false equals the number of workers that throw,
each entry depends only on its own worker outcome, and the fan-out
stages complete normally (Flow.cont), persisting the aggregated map. -/
theorem fanout_completeness (chat : String → Except Unit String) :
    (runFanout chat).map Prod.fst = TARGET_LANGUAGES.map Prod.fst ∧
    (runFanout chat).length = TARGET_LANGUAGES.length ∧
    ((runFanout chat).filter fun p => !p.2).length
      = (TARGET_LANGUAGES.filter fun p => workerThrows (chat p.1)).length ∧
    (∀ c b, (c, b) ∈ runFanout chat → b = !workerThrows (chat c)) ∧
    (∀ env st, env.chatTD = chat → env.tdExists = true →
      ∃ st1, Translate.process env st = Flow.cont st1 ∧
        st1.meta.translations =
          (runFanout chat).map fun p => (p.1, if p.2 then "done" else "failed")) ∧
    (∀ env st, env.chatCaptions = chat → env.captionsDirExists = true →
      env.srtCandidatesExist = true →
      ∃ st1, Captions.process env st = Flow.cont st1 ∧
        st1.meta.captionTranslations =
          (runFanout chat).map fun p => (p.1, if p.2 then "done" else "failed")) := by
  refine ⟨?_, ?_, ?_, ?_, ?_, ?_⟩
  · simp [runFanout, List.map_map]
  · simp [runFanout]
  · exact fanout_filter_count TARGET_LANGUAGES chat
  · intro c b hm
    simp only [runFanout, List.mem_map] at hm
    obtain ⟨p, _, hpe⟩ := hm
    have hc : p.1 = c := congrArg Prod.fst hpe
    have hb : translate_one (chat p.1) = b := congrArg Prod.snd hpe
    rw [← hb, hc, translate_one_eq_not_throws]
  · intro env st hchat htd
    have hp : Translate.process env st = Flow.cont (saveMeta st
        { st.meta with
          stage := "translated"
          translations := (runFanout env.chatTD).map
            fun p => (p.1, if p.2 then "done" else "failed") }) := by
      unfold Translate.process
      rw [if_neg (by simp [htd])]
    exact ⟨_, hp, by simp [saveMeta, hchat]⟩
  · intro env st hchat hdir hsrt
    have hp : Captions.process env st = Flow.cont (saveMeta st
        { st.meta with
          stage := "captions_translated"
          captionTranslations := (runFanout env.chatCaptions).map
            fun p => (p.1, if p.2 then "done" else "failed") }) := by
      unfold Captions.process
      rw [if_neg (by simp [hdir]), if_neg (by simp [hsrt])]
    exact ⟨_, hp, by simp [saveMeta, hchat]⟩

/-- Claim C5 witness: with every worker throwing, all eight target
languages are present and all eight entries are recorded false, and
translate.process completes normally. -/
theorem fanout_completeness_witness :
    (runFanout (fun _ => Except.error ())).map Prod.fst
        = TARGET_LANGUAGES.map Prod.fst ∧
    ((runFanout (fun _ => Except.error ())).filter fun p => !p.2).length
        = (TARGET_LANGUAGES.filter
            fun p => workerThrows ((fun _ => Except.error ()) p.1)).length ∧
    (∃ st1, Translate.process
        { rejectTdEnv with chatTD := fun _ => Except.error (), userOkTD := true }
        verifiedState = Flow.cont st1 ∧
      st1.meta.translations =
        (runFanout fun _ => Except.error ()).map
          fun p => (p.1, if p.2 then "done" else "failed")) := by
  refine ⟨(fanout_completeness _).1, (fanout_completeness _).2.2.1, ?_⟩
  exact (fanout_completeness _).2.2.2.2.1 _ verifiedState rfl rfl

lemma inv_save {s0 : String} {st : PState} (h : Inv s0 st) (m : MetaRecord)
    (hle : stageIdx st.meta.stage ≤ stageIdx m.stage) : Inv s0 (saveMeta st m) := by
  obtain ⟨h1, h2⟩ := h
  have hcons : s0 :: (st.writes ++ [m.stage]) = (s0 :: st.writes) ++ [m.stage] := by
    simp
  refine ⟨?_, ?_⟩
  · show List.Chain' stageLe (s0 :: (st.writes ++ [m.stage]))
    rw [hcons, List.chain'_append]
    refine ⟨h1, List.chain'_singleton _, ?_⟩
    intro x hx y hy
    rw [h2] at hx
    simp only [Option.mem_def, Option.some.injEq] at hx
    simp only [List.head?_cons, Option.mem_def, Option.some.injEq] at hy
    rw [← hx, ← hy]
    exact hle
  · show (s0 :: (st.writes ++ [m.stage])).getLast? = some m.stage
    rw [hcons]
    exact List.getLast?_concat _

lemma inv_extract {s0 : String} {st : PState} (h : Inv s0 st)
    (hst : stageIdx st.meta.stage ≤ 1) : Inv s0 (Audio.extract_audio st) :=
  inv_save h _ hst

lemma inv_gen_captions {s0 : String} {st : PState} (h : Inv s0 st)
    (hst : stageIdx st.meta.stage ≤ 2) : Inv s0 (Audio.generate_captions st) :=
  inv_save h _ hst

lemma inv_verify (env : Env) {s0 : String} {st : PState} (h : Inv s0 st)
    (hst : stageIdx st.meta.stage ≤ 3) :
    Inv s0 (Flow.state (Audio.verify env st)) := by
  cases h1 : env.srtExists with
  | false => simpa [Audio.verify, h1, Flow.state] using h
  | true =>
    cases h2 : env.userOkCaptions with
    | false => simpa [Audio.verify, h1, h2, Flow.state] using h
    | true =>
      have hs := inv_save h { st.meta with stage := "captions_verified" } hst
      simpa [Audio.verify, h1, h2, Flow.state] using hs

lemma inv_description (env : Env) {s0 : String} {st : PState} (h : Inv s0 st)
    (hst : stageIdx st.meta.stage ≤ 4) :
    Inv s0 (Flow.state (Description.process env st)) := by
  cases h1 : env.genOk with
  | false => simpa [Description.process, h1, Flow.state] using h
  | true =>
    have hs := inv_save h { st.meta with stage := "description_done" } hst
    cases h2 : env.userOkTD with
    | false => simpa [Description.process, h1, h2, Flow.state] using hs
    | true => simpa [Description.process, h1, h2, Flow.state] using hs

lemma inv_translate (env : Env) {s0 : String} {st : PState} (h : Inv s0 st)
    (hst : stageIdx st.meta.stage ≤ 5) :
    Inv s0 (Flow.state (Translate.process env st)) := by
  cases h1 : (!env.tdExists && !env.tdCandidatesExist) with
  | true => simpa [Translate.process, h1, Flow.state] using h
  | false =>
    have hs := inv_save h
      { st.meta with
        stage := "translated"
        translations := (runFanout env.chatTD).map
          fun p => (p.1, if p.2 then "done" else "failed") } hst
    simpa [Translate.process, h1, Flow.state] using hs

lemma inv_captions (env : Env) {s0 : String} {st : PState} (h : Inv s0 st)
    (hst : stageIdx st.meta.stage ≤ 6) :
    Inv s0 (Flow.state (Captions.process env st)) := by
  cases h1 : env.captionsDirExists with
  | false => simpa [Captions.process, h1, Flow.state] using h
  | true =>
    cases h2 : env.srtCandidatesExist with
    | false => simpa [Captions.process, h1, h2, Flow.state] using h
    | true =>
      have hs := inv_save h
        { st.meta with
          stage := "captions_translated"
          captionTranslations := (runFanout env.chatCaptions).map
            fun p => (p.1, if p.2 then "done" else "failed") } hst
      simpa [Captions.process, h1, h2, Flow.state] using hs

lemma inv_tts (env : Env) {s0 : String} {st : PState} (h : Inv s0 st)
    (hst : stageIdx st.meta.stage ≤ 7) :
    Inv s0 (Flow.state (Tts.process env st)) := by
  cases h1 : env.captionsDirExists with
  | false => simpa [Tts.process, h1, Flow.state] using h
  | true =>
    have hs := inv_save h { st.meta with stage := "tts_done" } hst
    simpa [Tts.process, h1, Flow.state] using hs

lemma verify_cont_stage {env : Env} {st st1 : PState}
    (h : Audio.verify env st = Flow.cont st1) :
    st1.meta.stage = "captions_verified" := by
  cases h1 : env.srtExists with
  | false => simp [Audio.verify, h1] at h
  | true =>
    cases h2 : env.userOkCaptions with
    | false => simp [Audio.verify, h1, h2] at h
    | true =>
      simp only [Audio.verify, h1, h2, Bool.not_true, Bool.false_eq_true,
        if_false, Flow.cont.injEq] at h
      rw [← h]
      rfl

lemma description_cont_stage {env : Env} {st st1 : PState}
    (h : Description.process env st = Flow.cont st1) :
    st1.meta.stage = "description_done" := by
  cases h1 : env.genOk with
  | false => simp [Description.process, h1] at h
  | true =>
    cases h2 : env.userOkTD with
    | false => simp [Description.process, h1, h2] at h
    | true =>
      simp only [Description.process, h1, h2, Bool.not_true, Bool.false_eq_true,
        if_false, Flow.cont.injEq] at h
      rw [← h]
      rfl

lemma translate_cont_stage {env : Env} {st st1 : PState}
    (h : Translate.process env st = Flow.cont st1) :
    st1.meta.stage = "translated" := by
  cases h1 : (!env.tdExists && !env.tdCandidatesExist) with
  | true => simp [Translate.process, h1] at h
  | false =>
    simp only [Translate.process, h1, Bool.false_eq_true, if_false,
      Flow.cont.injEq] at h
    rw [← h]
    rfl

lemma bind_inv {s0 : String} {x : Flow} {k : PState → Flow}
    (hx : Inv s0 x.state)
    (hk : ∀ st, x = Flow.cont st → Inv s0 st → Inv s0 (k st).state) :
    Inv s0 (Flow.bind x k).state := by
  cases x with
  | halt st => simpa [Flow.bind, Flow.state] using hx
  | cont st => simpa [Flow.bind] using hk st rfl (by simpa [Flow.state] using hx)

lemma inv_full_auto (env : Env) {s0 : String} (st : PState) (h : Inv s0 st) :
    Inv s0 (Flow.state (full_auto_run env st)) := by
  simp only [full_auto_run]
  apply bind_inv
  · by_cases hb : st.meta.stage = "init" ∨ st.meta.stage = "audio_pending"
        ∨ st.meta.stage = "audio_done"
    · rw [if_pos hb]
      have hle : stageIdx st.meta.stage ≤ 1 := by
        rcases hb with hb | hb | hb <;> rw [hb] <;> decide
      have h1 := inv_extract h hle
      have h2 := inv_gen_captions h1 (show stageIdx "audio_done" ≤ 2 by decide)
      exact inv_verify env h2 (show stageIdx "captions_done" ≤ 3 by decide)
    · rw [if_neg hb]
      simpa [Flow.state] using h
  · intro st1 _ h1
    apply bind_inv
    · by_cases hb : st1.meta.stage = "captions_verified"
          ∨ st1.meta.stage = "captions_done"
      · rw [if_pos hb]
        exact inv_description env h1 (by rcases hb with hb | hb <;> rw [hb] <;> decide)
      · rw [if_neg hb]
        simpa [Flow.state] using h1
    · intro st2 _ h2
      apply bind_inv
      · by_cases hb : st2.meta.stage = "description_done"
        · rw [if_pos hb]
          exact inv_translate env h2 (by rw [hb]; decide)
        · rw [if_neg hb]
          simpa [Flow.state] using h2
      · intro st3 _ h3
        apply bind_inv
        · by_cases hb : st3.meta.stage = "translated"
          · rw [if_pos hb]
            exact inv_captions env h3 (by rw [hb]; decide)
          · rw [if_neg hb]
            simpa [Flow.state] using h3
        · intro st4 _ h4
          by_cases hb : st4.meta.stage = "captions_translated"
          · rw [if_pos hb]
            exact inv_tts env h4 (by rw [hb]; decide)
          · rw [if_neg hb]
            simpa [Flow.state] using h4

lemma inv_handle (env : Env) {s0 : String} (st : PState) (h : Inv s0 st) :
    Inv s0 (Flow.state (handle_continue env st)) := by
  simp only [handle_continue]
  by_cases hb1 : st.meta.stage = "init" ∨ st.meta.stage = "audio_pending"
      ∨ st.meta.stage = "audio_done"
  · simp only [if_pos hb1, or_false, false_or, or_true, true_or, if_true, if_false]
    have hle1 : stageIdx st.meta.stage ≤ 3 := by
      rcases hb1 with hb | hb | hb <;> rw [hb] <;> decide
    apply bind_inv
    · exact inv_verify env h hle1
    · intro st1 hv h1
      apply bind_inv
      · exact inv_description env h1 (by rw [verify_cont_stage hv]; decide)
      · intro st2 hdp h2
        apply bind_inv
        · exact inv_translate env h2 (by rw [description_cont_stage hdp]; decide)
        · intro st3 htp h3
          exact inv_captions env h3 (by rw [translate_cont_stage htp]; decide)
  · simp only [if_neg hb1]
    by_cases hb2 : st.meta.stage = "captions_verified"
        ∨ st.meta.stage = "captions_done"
    · simp only [if_pos hb2, or_false, false_or, or_true, true_or, if_true, if_false]
      apply bind_inv
      · simpa [Flow.state] using h
      · intro st1 he h1
        have hst1 : st = st1 := by simpa using he
        apply bind_inv
        · refine inv_description env h1 ?_
          rw [← hst1]
          rcases hb2 with hb | hb <;> rw [hb] <;> decide
        · intro st2 hdp h2
          apply bind_inv
          · exact inv_translate env h2 (by rw [description_cont_stage hdp]; decide)
          · intro st3 htp h3
            exact inv_captions env h3 (by rw [translate_cont_stage htp]; decide)
    · simp only [if_neg hb2]
      by_cases hb3 : st.meta.stage = "description_done"
      · simp only [if_pos hb3, or_false, false_or, or_true, true_or, if_true, if_false]
        apply bind_inv
        · simpa [Flow.state] using h
        · intro st1 he h1
          apply bind_inv
          · simpa [Flow.state] using h1
          · intro st2 he2 h2
            apply bind_inv
            · refine inv_translate env h2 ?_
              have hst1 : st = st1 := by simpa using he
              have hst2 : st1 = st2 := by simpa using he2
              rw [← hst2, ← hst1, hb3]
              decide
            · intro st3 htp h3
              exact inv_captions env h3 (by rw [translate_cont_stage htp]; decide)
      · simp only [if_neg hb3]
        by_cases hb4 : st.meta.stage = "translated"
        · simp only [if_pos hb4, or_false, false_or, or_true, true_or, if_true, if_false]
          apply bind_inv
          · simpa [Flow.state] using h
          · intro st1 he h1
            apply bind_inv
            · simpa [Flow.state] using h1
            · intro st2 he2 h2
              apply bind_inv
              · simpa [Flow.state] using h2
              · intro st3 he3 h3
                refine inv_captions env h3 ?_
                have hst1 : st = st1 := by simpa using he
                have hst2 : st1 = st2 := by simpa using he2
                have hst3 : st2 = st3 := by simpa using he3
                rw [← hst3, ← hst2, ← hst1, hb4]
                decide
        · simp only [if_neg hb4]
          simpa [Flow.bind, Flow.state] using h

lemma inv_runInvocation (i : Invocation) {s0 : String} (st : PState)
    (h : Inv s0 st) : Inv s0 (Flow.state (runInvocation i st)) := by
  cases i with
  | fullAuto env => exact inv_full_auto env st h
  | handleCont env => exact inv_handle env st h

lemma inv_runSeq (l : List Invocation) {s0 : String} (st : PState)
    (h : Inv s0 st) : Inv s0 (runSeq l st) := by
  induction l generalizing st with
  | nil => simpa [runSeq] using h
  | cons i is ih => exact ih _ (inv_runInvocation i st h)

/-- Claim C4: across any sequence of resume invocations (full_auto.run
or handle_continue), the history of persisted stage values, starting
from the initially persisted stage, never moves to an earlier position
in the stage order. -/
theorem stage_monotonic (invs : List Invocation) (m0 : MetaRecord) :
    StageMono (m0.stage :: (runSeq invs { meta := m0, writes := [] }).writes) := by
  have h0 : Inv m0.stage { meta := m0, writes := [] } :=
    ⟨List.chain'_singleton _, rfl⟩
  exact (inv_runSeq invs _ h0).1

/-- Claim C2 counterexample: starting at stage captions_verified with
everything on disk and generation succeeding, the user rejects the
title/description confirmation, yet the persisted stage after the run
is description_done, not the captions_verified it held before the
checkpoint stage ran — save_td advances the stage before the prompt. -/
theorem td_checkpoint_stage_advances_cex :
    (Flow.state (Description.process rejectTdEnv verifiedState)).meta.stage
        = "description_done" ∧
    verifiedState.meta.stage = "captions_verified" ∧
    ("description_done" : String) ≠ "captions_verified" :=
  ⟨rfl, rfl, by decide⟩

/-- Claim C2 amended: rejecting the caption-verification checkpoint
exits cleanly with the persisted state (and stage) untouched; the
title/description checkpoint, however, persists stage
description_done (via save_td) before the confirmation prompt, so
rejection exits cleanly with stage description_done; re-running from
stage captions_done resumes at the TD stage (the first stage written
is description_done — caption verification is not re-entered), and
re-running from stage description_done resumes at the translation
stage (the first stage written is translated). -/
theorem manual_checkpoint_amended (env : Env) (st : PState) :
    (env.srtExists = true → env.userOkCaptions = false →
      Audio.verify env st = Flow.halt st) ∧
    (env.genOk = true → env.userOkTD = false →
      Description.process env st =
        Flow.halt (saveMeta st { st.meta with stage := "description_done" })) ∧
    (env.genOk = true → st.meta.stage = "captions_done" →
      ((Flow.state (full_auto_run env st)).writes.drop st.writes.length).head?
        = some "description_done") ∧
    (env.tdExists = true → st.meta.stage = "description_done" →
      ((Flow.state (full_auto_run env st)).writes.drop st.writes.length).head?
        = some "translated") := by
  refine ⟨?_, ?_, ?_, ?_⟩
  · intro h1 h2
    simp [Audio.verify, h1, h2]
  · intro hg hu
    simp [Description.process, hg, hu]
  · intro hg hstage
    cases hu : env.userOkTD <;> cases htd : env.tdExists <;>
      cases htc : env.tdCandidatesExist <;> cases hcd : env.captionsDirExists <;>
      cases hsc : env.srtCandidatesExist <;>
      simp [full_auto_run, hstage, hg, hu, htd, htc, hcd, hsc,
        Description.process, Translate.process, Captions.process, Tts.process,
        saveMeta, Flow.bind, Flow.state, List.append_assoc, List.drop_left]
  · intro htd hstage
    cases hcd : env.captionsDirExists <;> cases hsc : env.srtCandidatesExist <;>
      simp [full_auto_run, hstage, htd, hcd, hsc, Translate.process,
        Captions.process, Tts.process, saveMeta, Flow.bind, Flow.state,
        List.append_assoc, List.drop_left]

/-- Claim C2 amended witness: concrete runs showing the caption
rejection leaves the state untouched, the TD rejection halts with
stage description_done persisted, and a re-run from captions_done
first writes description_done. -/
theorem manual_checkpoint_amended_witness :
    Audio.verify rejectCaptionsEnv verifiedState = Flow.halt verifiedState ∧
    Description.process rejectTdEnv capsDoneState =
      Flow.halt (saveMeta capsDoneState
        { capsDoneState.meta with stage := "description_done" }) ∧
    ((Flow.state (full_auto_run rejectTdEnv capsDoneState)).writes.drop
        capsDoneState.writes.length).head? = some "description_done" :=
  ⟨(manual_checkpoint_amended rejectCaptionsEnv verifiedState).1 rfl rfl,
   (manual_checkpoint_amended rejectTdEnv capsDoneState).2.1 rfl rfl,
   (manual_checkpoint_amended rejectTdEnv capsDoneState).2.2.1 rfl rfl⟩

end VAIO
